import Mathlib

set_option autoImplicit false

/-!
Shallow embedding of the base-model / CRUD layer of `app/database.py`
(Flask-SQLAlchemy starter).  Records are mapped instances: finite lists of
attribute assignments, most recent first, so `getattr` is a first-match
lookup and an unset column reads as NULL (`Val.none`), exactly as a mapped
column with no value does.  The external transactional session is modelled
as a `DBState`: the committed table rows in insertion order plus the
autoincrement counter for the surrogate `id`.  The wall clock
(`datetime.utcnow`) is an explicit `Nat` parameter of every committing
operation.  Python exceptions (`KeyError` from the dict comprehension in
`AssociationModel.create_or_update`, the member-access fault on `None`
that the spec names `NotFoundError`, and `TypeError` from calling the
query builder's `filter_by` with a positional argument) are modelled as
`Except` error results: an operation that returns `Except.error` produced
no new state, i.e. the stored table is unchanged.
-/

namespace FlaskDB

/-- A runtime value held by a record attribute: NULL, an integer, a string,
or a timestamp (logical clock value). -/
inductive Val where
  | none
  | int (n : Int)
  | str (s : String)
  | time (t : Nat)
deriving DecidableEq

/-- A mapped record instance: attribute assignments, latest assignment
first.  `getattr` reads the latest assignment; a column never assigned
reads as NULL. -/
abbrev Rec := List (String × Val)

/-- Python `getattr(r, k)` on a mapped instance: the latest assignment to
`k`, or NULL when the column was never set. -/
def getattr (r : Rec) (k : String) : Val :=
  (r.lookup k).getD Val.none

/-- Python `setattr(r, k, v)`: record a new latest assignment. -/
def setattr (r : Rec) (k : String) (v : Val) : Rec :=
  (k, v) :: r

/-- The `for attr, val in kwargs.items(): setattr(self, attr, val)` loop of
`ModelCRUD.update`. -/
def setattrs (r : Rec) (fields : List (String × Val)) : Rec :=
  fields.foldl (fun a p => setattr a p.1 p.2) r

/-- Column metadata as enumerated by `cls.__table__.columns`: the name and
whether `c.foreign_keys` is nonempty (truthy). -/
structure DBColumn where
  name : String
  foreign_keys : Bool
deriving DecidableEq

/-- The declared, ordered column list of a concrete entity type. -/
structure Schema where
  columns : List DBColumn
deriving DecidableEq

/-- The external session's committed state: table rows in insertion order
and the autoincrement counter for the surrogate id. -/
structure DBState where
  table : List Rec
  nextId : Nat
deriving DecidableEq

/-- Python exceptions this layer can surface: the attribute fault on a
failed id lookup (the spec's NotFoundError), the KeyError of the fk dict
comprehension, and the TypeError of a positional `filter_by` argument. -/
inductive DBErr where
  | notFoundError
  | keyError
  | typeError
deriving DecidableEq

/-- A column default applied at flush time: used only when the attribute
was never assigned (`default=datetime.utcnow`, autoincrement id). -/
def applyDefault (r : Rec) (k : String) (v : Val) : Rec :=
  if (r.lookup k).isSome then r else (k, v) :: r

/-- `ModelCRUD.create` on a `TableModel`, committed path (the default
`commit=True`): build the instance from the kwargs, flush, which assigns
the autoincrement `id` and the `datetime.utcnow` defaults of `created_at`
and `updated_at` for columns not supplied, and append the row to the
table.  `t` is the current clock value. -/
def create (t : Nat) (fields : List (String × Val)) (st : DBState) : Rec × DBState :=
  let r :=
    applyDefault
      (applyDefault
        (applyDefault fields "id" (Val.int (st.nextId : Int)))
        "created_at" (Val.time t))
      "updated_at" (Val.time t)
  (r, ⟨st.table ++ [r], st.nextId + 1⟩)

/-- `ModelCRUD.update` applied to one record: assign every kwarg, then, if
committing, flush.  The flush issues an UPDATE only when at least one
attribute was assigned, and the `onupdate=datetime.utcnow` default of
`updated_at` fires on that UPDATE only when `updated_at` was not itself
assigned explicitly. -/
def update_record (t : Nat) (commit : Bool) (fields : List (String × Val)) (r : Rec) : Rec :=
  let r1 := setattrs r fields
  if commit && !fields.isEmpty && fields.all (fun p => p.1 != "updated_at") then
    setattr r1 "updated_at" (Val.time t)
  else r1

/-- A row satisfies the AND-combined keyword equality conditions of
`filter_by(**kwargs)`. -/
def rmatches (conds : List (String × Val)) (r : Rec) : Bool :=
  conds.all (fun p => getattr r p.1 == p.2)

/-- Executing `cls.select(**kwargs)` (keyword-equality path; the claims
never pass positional conditions here): the rows matching all keyword
conditions, in table order. -/
def select_rows (conds : List (String × Val)) (st : DBState) : List Rec :=
  st.table.filter (rmatches conds)

/-- `BaseModel.get_first`: `execute(cls.select(**kwargs)).scalar()`, the
first matching row or None. -/
def get_first (conds : List (String × Val)) (st : DBState) : Option Rec :=
  st.table.find? (rmatches conds)

/-- `BaseModel.get_scalars`: execute the select, capping the result with
`query.limit(limit)` only when `if limit:` is truthy — so `limit=None`
and `limit=0` both leave the query uncapped. -/
def get_scalars (conds : List (String × Val)) (limit : Option Nat) (st : DBState) : List Rec :=
  let rows := select_rows conds st
  match limit with
  | Option.none => rows
  | some n => if n != 0 then rows.take n else rows

/-- `BaseModel.get_all`: `execute(cls.select()).all()`, one row per stored
record. -/
def get_all (st : DBState) : List Rec :=
  select_rows [] st

/-- `BaseModel.get_columns`: `cls.__table__.columns`, the declared column
list. -/
def get_columns (s : Schema) : List DBColumn :=
  s.columns

/-- `BaseModel.get_column_names`. -/
def get_column_names (s : Schema) : List String :=
  (get_columns s).map (fun c => c.name)

/-- `BaseModel.get_table_as_list`: for every row of `get_scalars()` (no
limit), the `getattr` value of every declared column, in column order. -/
def get_table_as_list (s : Schema) (st : DBState) : List (List Val) :=
  (get_scalars [] Option.none st).map (fun r => (get_columns s).map (fun c => getattr r c.name))

/-- An id argument as `BaseModel.get_by_id` receives it: a Python int or a
Python str. -/
inductive PyId where
  | int (n : Int)
  | str (s : String)

/-- Python `str.isdigit` (ASCII model): nonempty and all digits, stated
over the character list of the string. -/
def isDigits (s : String) : Bool :=
  !s.data.isEmpty && s.data.all Char.isDigit

/-- The guard and conversion of `get_by_id`: a str passes when
`s.isdigit()` and converts via `int(s)`; an int passes as itself; anything
else yields no key and `get_by_id` returns None. -/
def idKey : PyId → Option Int
  | PyId.int n => some n
  | PyId.str s => if isDigits s then some ((s.toNat?.getD 0 : Nat) : Int) else Option.none

/-- `db.session.get(cls, n)`: primary-key lookup in the table. -/
def session_get (st : DBState) (n : Int) : Option Rec :=
  st.table.find? (fun r => getattr r "id" == Val.int n)

/-- `BaseModel.get_by_id`: if the id is a digit string or a number,
`db.session.get(cls, int(id))`; otherwise None.  Total: it never raises. -/
def get_by_id (i : PyId) (st : DBState) : Option Rec :=
  match idKey i with
  | some n => session_get st n
  | Option.none => Option.none

/-- Every stored row carries a positive integer surrogate id — the
invariant the autoincrement engine maintains. -/
def idPos (r : Rec) : Bool :=
  match getattr r "id" with
  | Val.int n => decide (0 < n)
  | _ => false

/-- Replace the first row satisfying `p` (the in-place mutation of a
fetched mapped instance, seen at table level). -/
def replaceFirst (p : Rec → Bool) (f : Rec → Rec) : List Rec → List Rec
  | [] => []
  | r :: rs => if p r then f r :: rs else r :: replaceFirst p f rs

/-- Remove the first row satisfying `p` (`db.session.delete` of a fetched
instance). -/
def removeFirst (p : Rec → Bool) : List Rec → List Rec
  | [] => []
  | r :: rs => if p r then rs else r :: removeFirst p rs

/-- `BaseModel.update_by_id`: `cls.get_by_id(id).update(commit=commit,
**kwargs)`.  When `get_by_id` returns None the member access faults — the
spec's NotFoundError — and no state is produced. -/
def update_by_id (t : Nat) (i : PyId) (commit : Bool) (fields : List (String × Val))
    (st : DBState) : Except DBErr DBState :=
  match idKey i with
  | Option.none => Except.error DBErr.notFoundError
  | some n =>
    match session_get st n with
    | Option.none => Except.error DBErr.notFoundError
    | some _ =>
      Except.ok ⟨replaceFirst (fun r => getattr r "id" == Val.int n)
        (update_record t commit fields) st.table, st.nextId⟩

/-- `BaseModel.delete_by_id`: `cls.get_by_id(id).delete(commit=commit,
**kwargs)`.  A None lookup faults first (NotFoundError); otherwise
`delete` accepts no field kwargs, so a nonempty `fields` is a TypeError;
the committed path removes the row. -/
def delete_by_id (i : PyId) (commit : Bool) (fields : List (String × Val))
    (st : DBState) : Except DBErr DBState :=
  match idKey i with
  | Option.none => Except.error DBErr.notFoundError
  | some n =>
    match session_get st n with
    | Option.none => Except.error DBErr.notFoundError
    | some _ =>
      if fields.isEmpty then
        Except.ok ⟨if commit then
            removeFirst (fun r => getattr r "id" == Val.int n) st.table
          else st.table, st.nextId⟩
      else Except.error DBErr.typeError

/-- `BaseModel.create_or_update`: plain delegation to `cls.create(**kwargs)`
with the default `commit=True` — an unconditional create. -/
def base_create_or_update (t : Nat) (fields : List (String × Val)) (st : DBState) :
    Rec × DBState :=
  create t fields st

/-- A positional condition expression, e.g. `cls.id.in_(ids)`. -/
inductive Cond where
  | idIn (ids : List Int)

/-- The external query builder's `Select.filter_by` called with positional
arguments: `filter_by` accepts keyword criteria only, so any positional
condition raises TypeError; with none it returns all rows. -/
def filter_by_positional (conditions : List Cond) (st : DBState) : Except DBErr (List Rec) :=
  match conditions with
  | [] => Except.ok st.table
  | _ :: _ => Except.error DBErr.typeError

/-- `BaseModel.get_by_ids`:
`execute(db.select(cls).filter_by(cls.id.in_(ids))).scalars()` — the
membership expression is passed to `filter_by` positionally. -/
def get_by_ids (ids : List Int) (st : DBState) : Except DBErr (List Rec) :=
  filter_by_positional [Cond.idIn ids] st

/-- `AssociationModel.fk_names`: the names of exactly the columns whose
`foreign_keys` set is nonempty, in declared column order; a derived
property recomputed from `get_columns()` on access. -/
def fk_names (s : Schema) : List String :=
  ((get_columns s).filter (fun c => c.foreign_keys)).map (fun c => c.name)

/-- The dict comprehension of `AssociationModel.create_or_update`:
build the foreign-key subset of the kwargs in `fk_names` order, raising
KeyError at the first foreign-key name the kwargs omit. -/
def fk_subset (fields : List (String × Val)) : List String → Except DBErr (List (String × Val))
  | [] => Except.ok []
  | k :: ks =>
    match fields.lookup k with
    | some v => (fk_subset fields ks).map (fun d => (k, v) :: d)
    | Option.none => Except.error DBErr.keyError

/-- `AssociationModel.create_or_update`: build the fk subset of the kwargs
(KeyError aborts everything, before any lookup, create or update), look up
an existing row by `get_first` on exactly that subset; if found, apply
`update` with the full kwargs (default commit) to it and return it,
otherwise `create` from the kwargs. -/
def assoc_create_or_update (s : Schema) (t : Nat) (fields : List (String × Val))
    (st : DBState) : Except DBErr (Rec × DBState) :=
  match fk_subset fields (fk_names s) with
  | Except.error e => Except.error e
  | Except.ok fkd =>
    match get_first fkd st with
    | some r =>
      Except.ok (update_record t true fields r,
        ⟨replaceFirst (rmatches fkd) (update_record t true fields) st.table, st.nextId⟩)
    | Option.none => Except.ok (create t fields st)

/-- A sequence of committed updates applied to one record: each element is
the clock value at that update and the kwargs supplied to it. -/
def applyUpdates (r : Rec) (us : List (Nat × List (String × Val))) : Rec :=
  us.foldl (fun a u => update_record u.1 true u.2 a) r

/-! ### Helper lemmas on attribute lookup -/

theorem lookup_cons_self (k : String) (v : Val) (r : Rec) :
    ((k, v) :: r : Rec).lookup k = some v := by
  simp [List.lookup]

theorem lookup_cons_ne (k k' : String) (v : Val) (r : Rec) (h : k' ≠ k) :
    ((k, v) :: r : Rec).lookup k' = r.lookup k' := by
  simp [List.lookup, beq_eq_false_iff_ne.mpr h]

theorem mem_of_lookup (fs : List (String × Val)) (k : String) (v : Val)
    (h : fs.lookup k = some v) : (k, v) ∈ fs := by
  induction fs with
  | nil => simp [List.lookup] at h
  | cons p fs ih =>
    by_cases hk : k = p.1
    · subst hk
      rw [show (p :: fs : List (String × Val)) = (p.1, p.2) :: fs from rfl,
        lookup_cons_self] at h
      injection h with h
      subst h
      exact List.mem_cons_self _ _
    · rw [show (p :: fs : List (String × Val)) = (p.1, p.2) :: fs from rfl,
        lookup_cons_ne _ _ _ _ hk] at h
      exact List.mem_cons_of_mem _ (ih h)

theorem lookup_applyDefault_of_some (r : Rec) (k k' : String) (v w : Val)
    (h : r.lookup k' = some w) : (applyDefault r k v).lookup k' = some w := by
  unfold applyDefault
  split
  · exact h
  · rename_i hnone
    by_cases hk : k' = k
    · subst hk
      rw [h] at hnone
      simp at hnone
    · rw [lookup_cons_ne _ _ _ _ hk]
      exact h

theorem lookup_applyDefault_of_ne (r : Rec) (k k' : String) (v : Val) (h : k' ≠ k) :
    (applyDefault r k v).lookup k' = r.lookup k' := by
  unfold applyDefault
  split
  · rfl
  · exact lookup_cons_ne _ _ _ _ h

theorem lookup_applyDefault_self_of_none (r : Rec) (k : String) (v : Val)
    (h : r.lookup k = Option.none) : (applyDefault r k v).lookup k = some v := by
  unfold applyDefault
  rw [h]
  simp [lookup_cons_self]

theorem setattrs_cons (r : Rec) (p : String × Val) (fs : List (String × Val)) :
    setattrs r (p :: fs) = setattrs ((p.1, p.2) :: r) fs := rfl

theorem lookup_setattrs_not_mem (fs : List (String × Val)) : ∀ (r : Rec) (k : String),
    (∀ p ∈ fs, p.1 ≠ k) → (setattrs r fs).lookup k = r.lookup k := by
  induction fs with
  | nil => intro r k _; rfl
  | cons p fs ih =>
    intro r k h
    rw [setattrs_cons, ih _ _ (fun q hq => h q (List.mem_cons_of_mem _ hq)),
      lookup_cons_ne _ _ _ _ (fun hk => h p (List.mem_cons_self _ _) hk.symm)]

theorem lookup_setattrs_mem (fs : List (String × Val)) : ∀ (r : Rec) (k : String) (v : Val),
    (fs.map Prod.fst).Nodup → fs.lookup k = some v → (setattrs r fs).lookup k = some v := by
  induction fs with
  | nil => intro r k v _ h; simp [List.lookup] at h
  | cons p fs ih =>
    intro r k v hnd h
    rw [List.map_cons, List.nodup_cons] at hnd
    by_cases hk : k = p.1
    · subst hk
      rw [show (p :: fs : List (String × Val)) = (p.1, p.2) :: fs from rfl,
        lookup_cons_self] at h
      cases h
      rw [setattrs_cons,
        lookup_setattrs_not_mem fs _ _
          (fun q hq hq1 => hnd.1 (by rw [← hq1]; exact List.mem_map_of_mem Prod.fst hq)),
        lookup_cons_self]
    · rw [show (p :: fs : List (String × Val)) = (p.1, p.2) :: fs from rfl,
        lookup_cons_ne _ _ _ _ hk] at h
      rw [setattrs_cons]
      exact ih _ _ _ hnd.2 h

/-! ### Helper lemmas on update_record and create -/

theorem getattr_update_record_mem (t : Nat) (c : Bool) (fs : List (String × Val)) (r : Rec)
    (k : String) (v : Val) (hnd : (fs.map Prod.fst).Nodup) (hl : fs.lookup k = some v) :
    getattr (update_record t c fs r) k = v := by
  unfold update_record
  split
  · rename_i hg
    simp only [Bool.and_eq_true, List.all_eq_true, bne_iff_ne] at hg
    have hkne : k ≠ "updated_at" := hg.2 (k, v) (mem_of_lookup _ _ _ hl)
    simp only [getattr, setattr]
    rw [lookup_cons_ne _ _ _ _ hkne, lookup_setattrs_mem _ _ _ _ hnd hl]
    rfl
  · simp only [getattr]
    rw [lookup_setattrs_mem _ _ _ _ hnd hl]
    rfl

theorem getattr_update_record_not_mem (t : Nat) (c : Bool) (fs : List (String × Val))
    (r : Rec) (k : String) (hne : k ≠ "updated_at") (hnm : ∀ p ∈ fs, p.1 ≠ k) :
    getattr (update_record t c fs r) k = getattr r k := by
  unfold update_record
  split
  · simp only [getattr, setattr]
    rw [lookup_cons_ne _ _ _ _ hne, lookup_setattrs_not_mem _ _ _ hnm]
  · simp only [getattr]
    rw [lookup_setattrs_not_mem _ _ _ hnm]

theorem getattr_update_record_updated_at (t : Nat) (fs : List (String × Val)) (r : Rec)
    (hne : fs ≠ []) (hnm : ∀ p ∈ fs, p.1 ≠ "updated_at") :
    getattr (update_record t true fs r) "updated_at" = Val.time t := by
  unfold update_record
  have hg : (true && !fs.isEmpty && fs.all (fun p => p.1 != "updated_at")) = true := by
    simp only [Bool.true_and, Bool.and_eq_true, Bool.not_eq_true', List.all_eq_true,
      bne_iff_ne]
    exact ⟨by cases fs with | nil => exact absurd rfl hne | cons p fs => rfl, hnm⟩
  rw [if_pos hg]
  simp only [getattr, setattr, lookup_cons_self]
  rfl

theorem getattr_create_mem (t : Nat) (fields : List (String × Val)) (st : DBState)
    (k : String) (v : Val) (h : fields.lookup k = some v) :
    getattr (create t fields st).1 k = v := by
  simp only [create, getattr]
  rw [lookup_applyDefault_of_some _ _ _ _ _
    (lookup_applyDefault_of_some _ _ _ _ _ (lookup_applyDefault_of_some _ _ _ _ _ h))]
  rfl

theorem create_timestamps (t : Nat) (fields : List (String × Val)) (st : DBState)
    (hc : fields.lookup "created_at" = Option.none)
    (hu : fields.lookup "updated_at" = Option.none) :
    getattr (create t fields st).1 "created_at" = Val.time t ∧
    getattr (create t fields st).1 "updated_at" = Val.time t := by
  have hc1 : (applyDefault fields "id" (Val.int (st.nextId : Int))).lookup "created_at"
      = Option.none := by
    rw [lookup_applyDefault_of_ne _ _ _ _ (by decide)]
    exact hc
  have hu1 : (applyDefault fields "id" (Val.int (st.nextId : Int))).lookup "updated_at"
      = Option.none := by
    rw [lookup_applyDefault_of_ne _ _ _ _ (by decide)]
    exact hu
  constructor
  · simp only [create, getattr]
    rw [lookup_applyDefault_of_ne _ _ _ _ (by decide),
      lookup_applyDefault_self_of_none _ _ _ hc1]
    rfl
  · simp only [create, getattr]
    rw [lookup_applyDefault_self_of_none _ _ _ (by
      rw [lookup_applyDefault_of_ne _ _ _ _ (by decide)]
      exact hu1)]
    rfl

theorem create_table (t : Nat) (fields : List (String × Val)) (st : DBState) :
    (create t fields st).2.table = st.table ++ [(create t fields st).1] := rfl

/-! ### Helper lemmas on list search and replacement -/

theorem find?_append_none {α : Type} (p : α → Bool) (l1 l2 : List α)
    (h : l1.find? p = Option.none) : (l1 ++ l2).find? p = l2.find? p := by
  induction l1 with
  | nil => rfl
  | cons a l1 ih =>
    cases hp : p a with
    | true =>
      rw [List.find?_cons_of_pos _ hp] at h
      cases h
    | false =>
      rw [List.find?_cons_of_neg _ (by simp [hp])] at h
      rw [List.cons_append, List.find?_cons_of_neg _ (by simp [hp])]
      exact ih h

theorem replaceFirst_append (p : Rec → Bool) (f : Rec → Rec) (l : List Rec) (r : Rec)
    (h : ∀ x ∈ l, p x = false) (hr : p r = true) :
    replaceFirst p f (l ++ [r]) = l ++ [f r] := by
  induction l with
  | nil => simp [replaceFirst, hr]
  | cons a l ih =>
    rw [List.cons_append, List.cons_append]
    simp only [replaceFirst]
    rw [if_neg (by simp [h a (List.mem_cons_self _ _)])]
    rw [ih (fun x hx => h x (List.mem_cons_of_mem _ hx))]

theorem filter_eq_nil_of_all_false (p : Rec → Bool) (l : List Rec)
    (h : ∀ x ∈ l, p x = false) : l.filter p = [] := by
  induction l with
  | nil => rfl
  | cons a l ih =>
    rw [List.filter_cons, if_neg (by simp [h a (List.mem_cons_self _ _)])]
    exact ih (fun x hx => h x (List.mem_cons_of_mem _ hx))

theorem rmatches_of_getattr (conds : List (String × Val)) (r : Rec)
    (h : ∀ p ∈ conds, getattr r p.1 = p.2) : rmatches conds r = true := by
  simp only [rmatches, List.all_eq_true, beq_iff_eq]
  exact h

/-! ### Helper lemmas on the fk subset -/

theorem fk_subset_ok_mem (fields : List (String × Val)) :
    ∀ (ks : List String) (d : List (String × Val)),
    fk_subset fields ks = Except.ok d → ∀ p ∈ d, fields.lookup p.1 = some p.2 := by
  intro ks
  induction ks with
  | nil =>
    intro d h p hp
    simp only [fk_subset] at h
    cases h
    simp at hp
  | cons k ks ih =>
    intro d h p hp
    simp only [fk_subset] at h
    cases hlk : fields.lookup k with
    | none => rw [hlk] at h; cases h
    | some v =>
      rw [hlk] at h
      cases hrec : fk_subset fields ks with
      | error e => rw [hrec] at h; cases h
      | ok d' =>
        rw [hrec] at h
        simp only [Except.map] at h
        cases h
        rcases List.mem_cons.mp hp with hp1 | hp2
        · subst hp1; exact hlk
        · exact ih d' hrec p hp2

theorem fk_subset_error_of_missing (fields : List (String × Val)) :
    ∀ (ks : List String) (k : String), k ∈ ks → fields.lookup k = Option.none →
    fk_subset fields ks = Except.error DBErr.keyError := by
  intro ks
  induction ks with
  | nil => intro k hk; simp at hk
  | cons k' ks ih =>
    intro k hk hnone
    simp only [fk_subset]
    rcases List.mem_cons.mp hk with hk1 | hk2
    · subst hk1
      rw [hnone]
    · cases hlk : fields.lookup k' with
      | none => rfl
      | some v =>
        rw [ih k hk2 hnone]
        rfl

/-! ### Example instances used by witnesses -/

/-- The spec's P4 example association entity: Enrollment with foreign keys
student_id and course_id and payload column grade, plus the TableModel
columns. -/
def enrollment : Schema :=
  ⟨[⟨"id", false⟩, ⟨"created_at", false⟩, ⟨"updated_at", false⟩,
    ⟨"student_id", true⟩, ⟨"course_id", true⟩, ⟨"grade", false⟩]⟩

/-- A one-row example table holding the record with id 1. -/
def oneRowState : DBState :=
  ⟨[[("id", Val.int 1)]], 2⟩

/-! ### Claim theorems -/

/-- C5: for a non-association entity type, create_or_update is exactly
create with the default commit=True — same returned value, same session
effect — and the effect is an unconditional append of one new row, with
no duplicate check. -/
theorem base_create_or_update_is_create (t : Nat) (fields : List (String × Val))
    (st : DBState) :
    base_create_or_update t fields st = create t fields st ∧
    (base_create_or_update t fields st).2.table
      = st.table ++ [(base_create_or_update t fields st).1] :=
  ⟨rfl, rfl⟩

/-- C8: fk_names is the list of names of exactly the columns that carry a
foreign-key constraint, in declared column order (it is a sublist of the
declared column-name list), recomputed from the column metadata. -/
theorem fk_names_spec (s : Schema) :
    fk_names s = ((get_columns s).filter (fun c => c.foreign_keys)).map (fun c => c.name) ∧
    List.Sublist (fk_names s) ((get_columns s).map (fun c => c.name)) ∧
    (∀ n : String, n ∈ fk_names s ↔ ∃ c ∈ get_columns s, c.foreign_keys = true ∧ c.name = n) := by
  refine ⟨rfl, List.Sublist.map _ (List.filter_sublist _), ?_⟩
  intro n
  simp only [fk_names, List.mem_map, List.mem_filter]
  constructor
  · rintro ⟨c, ⟨hc, hfk⟩, hn⟩
    exact ⟨c, hc, hfk, hn⟩
  · rintro ⟨c, hc, hfk, hn⟩
    exact ⟨c, ⟨hc, hfk⟩, hn⟩

/-- C9: get_all returns one row per stored record, and get_table_as_list
returns one row per stored record, each row listing the record's value at
every declared column, in declared column order. -/
theorem table_snapshot (s : Schema) (st : DBState) :
    (get_all st).length = st.table.length ∧
    (get_table_as_list s st).length = st.table.length ∧
    (∀ row ∈ get_table_as_list s st, row.length = (get_columns s).length) ∧
    get_table_as_list s st
      = st.table.map (fun r => (get_columns s).map (fun c => getattr r c.name)) := by
  have hsel : select_rows [] st = st.table := by
    simp [select_rows, rmatches]
  have hlist : get_table_as_list s st
      = st.table.map (fun r => (get_columns s).map (fun c => getattr r c.name)) := by
    simp only [get_table_as_list, get_scalars]
    rw [hsel]
  refine ⟨by simp only [get_all, hsel], ?_, ?_, hlist⟩
  · rw [hlist, List.length_map]
  · intro row hrow
    rw [hlist] at hrow
    obtain ⟨r, _, hr⟩ := List.mem_map.mp hrow
    rw [← hr, List.length_map]

/-- C6 counterexample: with one stored record, get_scalars with limit 0
returns that record — the limit-0 call does not return no records. -/
theorem get_scalars_limit0_counterexample :
    ¬ ((get_scalars [] (some 0) oneRowState).length = 0) := by decide

/-- C6 amended: a positive limit n caps the result at n records, a null
limit returns all records matching the conditions, and limit 0 is treated
as no limit (the truthiness test) and also returns all matching records. -/
theorem get_scalars_limit_spec (conds : List (String × Val)) (st : DBState) :
    (∀ n : Nat, 0 < n → (get_scalars conds (some n) st).length ≤ n) ∧
    get_scalars conds Option.none st = select_rows conds st ∧
    get_scalars conds (some 0) st = select_rows conds st := by
  refine ⟨?_, rfl, rfl⟩
  intro n hn
  simp only [get_scalars]
  rw [if_pos (by simpa [bne_iff_ne] using Nat.pos_iff_ne_zero.mp hn)]
  rw [List.length_take]
  exact min_le_left _ _

/-- C4 (code defect): get_by_ids passes the membership expression to the
query builder's filter_by positionally; filter_by accepts keyword criteria
only, so every call raises TypeError instead of returning the records
whose id is in ids. -/
theorem get_by_ids_raises_type_error :
    get_by_ids [1] oneRowState = Except.error DBErr.typeError := rfl

/-- C2: when get_by_id finds nothing, update_by_id and delete_by_id fail
with the NotFoundError fault (the member access on the None lookup); the
error result carries no new state, so the stored table is unchanged. -/
theorem by_id_not_found (t : Nat) (i : PyId) (c c' : Bool)
    (fields fields' : List (String × Val)) (st : DBState)
    (h : get_by_id i st = Option.none) :
    update_by_id t i c fields st = Except.error DBErr.notFoundError ∧
    delete_by_id i c' fields' st = Except.error DBErr.notFoundError := by
  cases hk : idKey i with
  | none => exact ⟨by simp [update_by_id, hk], by simp [delete_by_id, hk]⟩
  | some n =>
    have hs : session_get st n = Option.none := by
      simpa [get_by_id, hk] using h
    exact ⟨by simp [update_by_id, hk, hs], by simp [delete_by_id, hk, hs]⟩

/-- C10: an association create_or_update whose kwargs omit one of the
foreign-key column names raises KeyError while building the natural-key
dict, before any lookup, create or update; the error result carries no
new state, so the session and the stored table are unchanged. -/
theorem assoc_missing_fk_key (s : Schema) (t : Nat) (fields : List (String × Val))
    (st : DBState) (h : ∃ k ∈ fk_names s, fields.lookup k = Option.none) :
    assoc_create_or_update s t fields st = Except.error DBErr.keyError := by
  obtain ⟨k, hk, hnone⟩ := h
  simp [assoc_create_or_update, fk_subset_error_of_missing fields _ k hk hnone]

/-- C3: get_by_id is total (it never raises) and returns None for a
negative id (stored ids are positive), a non-numeric string id, and an id
matching no stored record; a numeric id reaches the primary-key lookup
directly and a digit-only string id reaches it via int conversion, so an
id naming a stored record returns that record. -/
theorem get_by_id_spec (st : DBState) :
    (∀ n : Int, n < 0 → st.table.all idPos = true →
      get_by_id (PyId.int n) st = Option.none) ∧
    (∀ s : String, isDigits s = false → get_by_id (PyId.str s) st = Option.none) ∧
    (∀ n : Int, (∀ r ∈ st.table, getattr r "id" ≠ Val.int n) →
      get_by_id (PyId.int n) st = Option.none) ∧
    (∀ n : Int, ∀ r : Rec, session_get st n = some r →
      get_by_id (PyId.int n) st = some r ∧ getattr r "id" = Val.int n) ∧
    (∀ s : String, isDigits s = true →
      get_by_id (PyId.str s) st = session_get st ((s.toNat?.getD 0 : Nat) : Int)) := by
  refine ⟨?_, ?_, ?_, ?_, ?_⟩
  · intro n hneg hall
    show session_get st n = Option.none
    rw [session_get, List.find?_eq_none]
    intro r hr hp
    rw [beq_iff_eq] at hp
    have hpos := List.all_eq_true.mp hall r hr
    rw [idPos, hp] at hpos
    simp only [decide_eq_true_eq] at hpos
    omega
  · intro s h
    simp [get_by_id, idKey, h]
  · intro n hnone
    show session_get st n = Option.none
    rw [session_get, List.find?_eq_none]
    intro r hr hp
    rw [beq_iff_eq] at hp
    exact hnone r hr hp
  · intro n r h
    refine ⟨h, ?_⟩
    have := List.find?_some h
    rwa [beq_iff_eq] at this
  · intro s h
    simp [get_by_id, idKey, h]

/-! ### The association upsert (C1) -/

/-- C1: association upsert keyed on the foreign-key subset.  Starting from
a table with no record matching the key, two successive create_or_update
calls that supply all foreign-key names with the same values (fkd is the
natural-key subset both calls produce) leave exactly one persisted record
matching the key: the first call creates it, the second call finds it via
get_first on exactly the fk subset, applies update with its full kwargs to
it and returns it, so the surviving record carries the second call's field
values. -/
theorem assoc_upsert_two_calls (s : Schema) (t1 t2 : Nat)
    (fields1 fields2 fkd : List (String × Val)) (st st1 st2 : DBState) (rA rB : Rec)
    (hk1 : fk_subset fields1 (fk_names s) = Except.ok fkd)
    (hk2 : fk_subset fields2 (fk_names s) = Except.ok fkd)
    (hnd : (fields2.map Prod.fst).Nodup)
    (h0 : get_first fkd st = Option.none)
    (hA : assoc_create_or_update s t1 fields1 st = Except.ok (rA, st1))
    (hB : assoc_create_or_update s t2 fields2 st1 = Except.ok (rB, st2)) :
    rA = (create t1 fields1 st).1 ∧
    st1.table = st.table ++ [rA] ∧
    rB = update_record t2 true fields2 rA ∧
    st2.table = st.table ++ [rB] ∧
    st2.table.filter (rmatches fkd) = [rB] ∧
    (∀ k v, fields2.lookup k = some v → getattr rB k = v) := by
  have hA' : create t1 fields1 st = (rA, st1) := by
    have h := hA
    simp only [assoc_create_or_update, hk1, h0, Except.ok.injEq] at h
    exact h
  have hrA : rA = (create t1 fields1 st).1 := by rw [hA']
  have hst1 : st1.table = st.table ++ [rA] := by
    have h2 : st1 = (create t1 fields1 st).2 := by rw [hA']
    rw [h2, hrA]
    exact create_table t1 fields1 st
  have hmem1 : ∀ p ∈ fkd, fields1.lookup p.1 = some p.2 :=
    fk_subset_ok_mem fields1 _ fkd hk1
  have hmem2 : ∀ p ∈ fkd, fields2.lookup p.1 = some p.2 :=
    fk_subset_ok_mem fields2 _ fkd hk2
  have hmatchA : rmatches fkd rA = true := by
    refine rmatches_of_getattr _ _ (fun p hp => ?_)
    rw [hrA]
    exact getattr_create_mem _ _ _ _ _ (hmem1 p hp)
  have hfails : ∀ x ∈ st.table, rmatches fkd x = false := by
    intro x hx
    have := List.find?_eq_none.mp h0 x hx
    exact Bool.eq_false_iff.mpr this
  have hfindA : get_first fkd st1 = some rA := by
    rw [get_first, hst1, find?_append_none _ _ _ h0,
      List.find?_cons_of_pos _ hmatchA]
  have hB' : update_record t2 true fields2 rA = rB ∧
      (⟨replaceFirst (rmatches fkd) (update_record t2 true fields2) st1.table,
        st1.nextId⟩ : DBState) = st2 := by
    have h := hB
    simp only [assoc_create_or_update, hk2, hfindA, Except.ok.injEq, Prod.mk.injEq] at h
    exact h
  have hrB : rB = update_record t2 true fields2 rA := hB'.1.symm
  have hst2 : st2.table = st.table ++ [rB] := by
    rw [← hB'.2]
    show replaceFirst (rmatches fkd) (update_record t2 true fields2) st1.table
      = st.table ++ [rB]
    rw [hst1, replaceFirst_append _ _ _ _ hfails hmatchA, hrB]
  have hmatchB : rmatches fkd rB = true := by
    refine rmatches_of_getattr _ _ (fun p hp => ?_)
    rw [hrB]
    exact getattr_update_record_mem _ _ _ _ _ _ hnd (hmem2 p hp)
  refine ⟨hrA, hst1, hrB, hst2, ?_, ?_⟩
  · rw [hst2, List.filter_append, filter_eq_nil_of_all_false _ _ hfails,
      List.filter_cons, if_pos hmatchB]
    rfl
  · intro k v hkv
    rw [hrB]
    exact getattr_update_record_mem _ _ _ _ _ _ hnd hkv

/-! ### The timestamp lifecycle (C7) -/

theorem applyUpdates_timestamps (us : List (Nat × List (String × Val))) :
    ∀ (r : Rec) (a c : Nat),
    getattr r "created_at" = Val.time c →
    getattr r "updated_at" = Val.time a →
    (∀ u ∈ us, u.2 ≠ [] ∧ ∀ p ∈ u.2, p.1 ≠ "created_at" ∧ p.1 ≠ "updated_at") →
    getattr (applyUpdates r us) "created_at" = Val.time c ∧
    getattr (applyUpdates r us) "updated_at" = Val.time ((us.map Prod.fst).getLastD a) := by
  induction us with
  | nil =>
    intro r a c h1 h2 _
    exact ⟨h1, by simpa using h2⟩
  | cons u us ih =>
    intro r a c h1 h2 hus
    have hu := hus u (List.mem_cons_self _ _)
    have happ : applyUpdates r (u :: us) = applyUpdates (update_record u.1 true u.2 r) us :=
      rfl
    have hc' : getattr (update_record u.1 true u.2 r) "created_at" = Val.time c := by
      rw [getattr_update_record_not_mem _ _ _ _ _ (by decide) (fun p hp => (hu.2 p hp).1)]
      exact h1
    have hu' : getattr (update_record u.1 true u.2 r) "updated_at" = Val.time u.1 :=
      getattr_update_record_updated_at _ _ _ hu.1 (fun p hp => (hu.2 p hp).2)
    have hrec := ih (update_record u.1 true u.2 r) u.1 c hc' hu'
      (fun q hq => hus q (List.mem_cons_of_mem _ hq))
    rw [happ]
    refine ⟨hrec.1, ?_⟩
    rw [List.map_cons, List.getLastD_cons]
    exact hrec.2

theorem chain_getLastD_le (ts : List Nat) : ∀ (a : Nat),
    List.Chain' (· ≤ ·) (a :: ts) → a ≤ ts.getLastD a := by
  induction ts with
  | nil => intro a _; exact le_refl a
  | cons t ts ih =>
    intro a h
    rw [List.chain'_cons] at h
    rw [List.getLastD_cons]
    exact le_trans h.1 (ih t h.2)

theorem chain_take (ts : List Nat) : ∀ (a n : Nat),
    List.Chain' (· ≤ ·) (a :: ts) → List.Chain' (· ≤ ·) (a :: ts.take n) := by
  induction ts with
  | nil =>
    intro a n h
    rw [List.take_nil]
    exact h
  | cons t ts ih =>
    intro a n h
    rw [List.chain'_cons] at h
    cases n with
    | zero =>
      rw [List.take_zero]
      exact List.chain'_singleton a
    | succ m =>
      rw [List.take_succ_cons, List.chain'_cons]
      exact ⟨h.1, ih t m h.2⟩

theorem chain_getLastD_take_le (ts : List Nat) : ∀ (a n : Nat),
    List.Chain' (· ≤ ·) (a :: ts) →
    (ts.take n).getLastD a ≤ (ts.take (n + 1)).getLastD a := by
  induction ts with
  | nil =>
    intro a n _
    rw [List.take_nil, List.take_nil]
  | cons t ts ih =>
    intro a n h
    rw [List.chain'_cons] at h
    cases n with
    | zero =>
      rw [List.take_zero, List.take_succ_cons, List.take_zero, List.getLastD_cons]
      exact h.1
    | succ m =>
      rw [List.take_succ_cons, List.take_succ_cons, List.getLastD_cons, List.getLastD_cons]
      exact ih t m h.2

/-- C7: the timestamp lifecycle of a committed entity.  With a monotone
clock (the chain hypothesis) and updates that supply at least one field
and do not assign the timestamp columns themselves: created_at and
updated_at are both set to the creation instant (so they are equal right
after creation), created_at keeps that value after any number of
committed updates, after any prefix of the updates updated_at equals the
clock value of the latest committed update (every committed update resets
it to the current instant), and that value never decreases from one
update to the next and never drops below the creation instant. -/
theorem timestamp_lifecycle (t0 : Nat) (fields0 : List (String × Val)) (st : DBState)
    (us : List (Nat × List (String × Val)))
    (hc0 : fields0.lookup "created_at" = Option.none)
    (hu0 : fields0.lookup "updated_at" = Option.none)
    (hchain : List.Chain' (· ≤ ·) (t0 :: us.map Prod.fst))
    (hus : ∀ u ∈ us, u.2 ≠ [] ∧ ∀ p ∈ u.2, p.1 ≠ "created_at" ∧ p.1 ≠ "updated_at") :
    getattr (create t0 fields0 st).1 "created_at" = Val.time t0 ∧
    getattr (create t0 fields0 st).1 "updated_at" = Val.time t0 ∧
    (∀ n : Nat,
      getattr (applyUpdates (create t0 fields0 st).1 (us.take n)) "created_at"
        = Val.time t0) ∧
    (∀ n : Nat,
      getattr (applyUpdates (create t0 fields0 st).1 (us.take n)) "updated_at"
        = Val.time (((us.take n).map Prod.fst).getLastD t0)) ∧
    (∀ n : Nat, ((us.take n).map Prod.fst).getLastD t0
      ≤ ((us.take (n + 1)).map Prod.fst).getLastD t0) ∧
    t0 ≤ (us.map Prod.fst).getLastD t0 := by
  obtain ⟨hcr, hup⟩ := create_timestamps t0 fields0 st hc0 hu0
  have hpre : ∀ n : Nat,
      getattr (applyUpdates (create t0 fields0 st).1 (us.take n)) "created_at"
        = Val.time t0 ∧
      getattr (applyUpdates (create t0 fields0 st).1 (us.take n)) "updated_at"
        = Val.time (((us.take n).map Prod.fst).getLastD t0) := by
    intro n
    exact applyUpdates_timestamps (us.take n) _ t0 t0 hcr hup
      (fun u hu => hus u (List.take_subset n us hu))
  refine ⟨hcr, hup, fun n => (hpre n).1, fun n => (hpre n).2, ?_, ?_⟩
  · intro n
    rw [List.map_take, List.map_take]
    exact chain_getLastD_take_le _ _ _ hchain
  · exact chain_getLastD_le _ _ hchain

/-! ### Witness instances -/

def exFields1 : List (String × Val) :=
  [("student_id", Val.int 1), ("course_id", Val.int 2), ("grade", Val.str "A")]

def exFields2 : List (String × Val) :=
  [("student_id", Val.int 1), ("course_id", Val.int 2), ("grade", Val.str "B")]

def exFkd : List (String × Val) :=
  [("student_id", Val.int 1), ("course_id", Val.int 2)]

def exRecA : Rec :=
  ("updated_at", Val.time 1) :: ("created_at", Val.time 1) :: ("id", Val.int 1) :: exFields1

def exRecB : Rec :=
  ("updated_at", Val.time 2) :: ("grade", Val.str "B") :: ("course_id", Val.int 2) ::
    ("student_id", Val.int 1) :: exRecA

def exSt0 : DBState := ⟨[], 1⟩

def exSt1 : DBState := ⟨[exRecA], 2⟩

def exSt2 : DBState := ⟨[exRecB], 2⟩

def exAuthorFields : List (String × Val) := [("name", Val.str "Ada")]

def exAuthorUpdates : List (Nat × List (String × Val)) :=
  [(2, [("name", Val.str "Ada L.")]), (3, [("name", Val.str "Ada Lovelace")])]

/-- Witness for C1 at the spec's P4 Enrollment scenario: grade A then
grade B on the natural key (student 1, course 2) leaves one matching
record carrying grade B. -/
theorem assoc_upsert_two_calls_witness :
    exRecA = (create 1 exFields1 exSt0).1 ∧
    exSt1.table = exSt0.table ++ [exRecA] ∧
    exRecB = update_record 2 true exFields2 exRecA ∧
    exSt2.table = exSt0.table ++ [exRecB] ∧
    exSt2.table.filter (rmatches exFkd) = [exRecB] ∧
    (∀ k v, exFields2.lookup k = some v → getattr exRecB k = v) :=
  assoc_upsert_two_calls enrollment 1 2 exFields1 exFields2 exFkd exSt0 exSt1 exSt2
    exRecA exRecB rfl rfl (by decide) rfl rfl rfl

/-- Witness for C2: id 5 names no record of the one-row table. -/
theorem by_id_not_found_witness :
    update_by_id 0 (PyId.int 5) true [] oneRowState = Except.error DBErr.notFoundError ∧
    delete_by_id (PyId.int 5) true [] oneRowState = Except.error DBErr.notFoundError :=
  by_id_not_found 0 (PyId.int 5) true true [] [] oneRowState (by decide)

/-- Witness for C3 on the one-row table: negative, non-numeric and absent
ids give None; the numeric id 1 and the digit string id both reach the
stored record. -/
theorem get_by_id_spec_witness :
    get_by_id (PyId.int (-1)) oneRowState = Option.none ∧
    get_by_id (PyId.str "abc") oneRowState = Option.none ∧
    get_by_id (PyId.int 7) oneRowState = Option.none ∧
    (get_by_id (PyId.int 1) oneRowState = some [("id", Val.int 1)] ∧
      getattr [("id", Val.int 1)] "id" = Val.int 1) ∧
    get_by_id (PyId.str "1") oneRowState
      = session_get oneRowState ((("1".toNat?.getD 0 : Nat) : Int)) :=
  ⟨(get_by_id_spec oneRowState).1 (-1) (by decide) (by decide),
   (get_by_id_spec oneRowState).2.1 "abc" (by decide),
   (get_by_id_spec oneRowState).2.2.1 7 (by decide),
   (get_by_id_spec oneRowState).2.2.2.1 1 [("id", Val.int 1)] (by decide),
   (get_by_id_spec oneRowState).2.2.2.2 "1" (by decide)⟩

/-- Witness for C6 amended, on the one-row table. -/
theorem get_scalars_limit_spec_witness :
    (get_scalars [] (some 1) oneRowState).length ≤ 1 ∧
    get_scalars [] Option.none oneRowState = select_rows [] oneRowState ∧
    get_scalars [] (some 0) oneRowState = select_rows [] oneRowState :=
  ⟨(get_scalars_limit_spec [] oneRowState).1 1 (by decide),
   (get_scalars_limit_spec [] oneRowState).2.1,
   (get_scalars_limit_spec [] oneRowState).2.2⟩

/-- Witness for C7 at the spec's Author scenario: create at instant 1,
update at instants 2 and 3. -/
theorem timestamp_lifecycle_witness :
    getattr (create 1 exAuthorFields exSt0).1 "created_at" = Val.time 1 ∧
    getattr (create 1 exAuthorFields exSt0).1 "updated_at" = Val.time 1 ∧
    (∀ n : Nat,
      getattr (applyUpdates (create 1 exAuthorFields exSt0).1 (exAuthorUpdates.take n))
        "created_at" = Val.time 1) ∧
    (∀ n : Nat,
      getattr (applyUpdates (create 1 exAuthorFields exSt0).1 (exAuthorUpdates.take n))
        "updated_at" = Val.time (((exAuthorUpdates.take n).map Prod.fst).getLastD 1)) ∧
    (∀ n : Nat, ((exAuthorUpdates.take n).map Prod.fst).getLastD 1
      ≤ ((exAuthorUpdates.take (n + 1)).map Prod.fst).getLastD 1) ∧
    1 ≤ (exAuthorUpdates.map Prod.fst).getLastD 1 :=
  timestamp_lifecycle 1 exAuthorFields exSt0 exAuthorUpdates rfl rfl
    (by simp [exAuthorUpdates, List.chain'_cons, List.chain'_singleton]) (by decide)

/-- Witness for C8 at the Enrollment schema. -/
theorem fk_names_spec_witness :
    fk_names enrollment
      = ((get_columns enrollment).filter (fun c => c.foreign_keys)).map (fun c => c.name) ∧
    List.Sublist (fk_names enrollment) ((get_columns enrollment).map (fun c => c.name)) ∧
    (∀ n : String, n ∈ fk_names enrollment ↔
      ∃ c ∈ get_columns enrollment, c.foreign_keys = true ∧ c.name = n) :=
  fk_names_spec enrollment

/-- Witness for C9 at the Enrollment schema over the one-row table. -/
theorem table_snapshot_witness :
    (get_all oneRowState).length = oneRowState.table.length ∧
    (get_table_as_list enrollment oneRowState).length = oneRowState.table.length ∧
    (∀ row ∈ get_table_as_list enrollment oneRowState,
      row.length = (get_columns enrollment).length) ∧
    get_table_as_list enrollment oneRowState
      = oneRowState.table.map
          (fun r => (get_columns enrollment).map (fun c => getattr r c.name)) :=
  table_snapshot enrollment oneRowState

/-- Witness for C10: kwargs supplying student_id and grade but omitting
the foreign-key name course_id. -/
theorem assoc_missing_fk_key_witness :
    assoc_create_or_update enrollment 1
      [("student_id", Val.int 1), ("grade", Val.str "A")] oneRowState
      = Except.error DBErr.keyError :=
  assoc_missing_fk_key enrollment 1 [("student_id", Val.int 1), ("grade", Val.str "A")]
    oneRowState (by decide)

end FlaskDB
